import Mathlib

/-
Verification development for the third-party-domain tag tracker
(`ThirdPartyDomainTracker`, content script).  The definitions below are a
shallow embedding of the final, most complete variant of the tracker
(the variant with configurable timeout settings and dynamic tag width);
each definition mirrors the JavaScript method of the same name.  DOM
handles, logging and animation classes are not part of the observable
state and are omitted; JavaScript `Map`s are embedded as association
lists and `Set`s as duplicate-free lists in insertion order.
-/

namespace TPD

/-- Lookup in an association list keyed by strings, mirroring `Map.get`:
returns the value of the first entry whose key matches. -/
def getKey? {α : Type} (l : List (String × α)) (k : String) : Option α :=
  match l with
  | [] => none
  | (k₂, v) :: rest => if k₂ = k then some v else getKey? rest k

/-- Update in an association list, mirroring `Map.set`: overwrites the
first entry with the given key, or appends a fresh entry. -/
def setKey {α : Type} (l : List (String × α)) (k : String) (v : α) :
    List (String × α) :=
  match l with
  | [] => [(k, v)]
  | (k₂, v₂) :: rest =>
    if k₂ = k then (k, v) :: rest else (k₂, v₂) :: setKey rest k v

/-- Deletion from an association list, mirroring `Map.delete`. -/
def eraseKey {α : Type} (l : List (String × α)) (k : String) :
    List (String × α) :=
  l.filter (fun p => p.1 ≠ k)

/-- Favicon URL template, mirroring `getFaviconUrl`. -/
def getFaviconUrl (domain : String) : String :=
  "https://www.google.com/s2/favicons?domain=" ++ domain ++ "&sz=16"

/-- Fallback icon value cached when the favicon fetch fails or times out. -/
def fallbackIcon : String := "🌐"

/-- Effect of the `img.onload` handler inside `loadFavicon` on the favicon
cache: it writes the favicon URL unconditionally. -/
def favOnload (domain : String) (cache : List (String × String)) :
    List (String × String) :=
  setKey cache domain (getFaviconUrl domain)

/-- Effect of the `img.onerror` handler inside `loadFavicon` on the favicon
cache: it writes the fallback icon unconditionally. -/
def favOnerror (domain : String) (cache : List (String × String)) :
    List (String × String) :=
  setKey cache domain fallbackIcon

/-- Effect of the 3000ms bounded-timeout callback inside `loadFavicon` on
the favicon cache: it writes the fallback icon only when the cache still
has no entry for the domain. -/
def favTimeoutCheck (domain : String) (cache : List (String × String)) :
    List (String × String) :=
  if (getKey? cache domain).isSome then cache
  else setKey cache domain fallbackIcon

/-- Synchronous prefix of a `loadFavicon` call: on a cache hit it resolves
the cached value immediately and issues no fetch; on a miss it creates an
image element whose `src` assignment issues a fetch and leaves the cache
untouched until a handler fires.  Returns (immediate result, whether a new
fetch was issued, cache after the call). -/
def loadFaviconStart (domain : String) (cache : List (String × String)) :
    Option String × Bool × List (String × String) :=
  match getKey? cache domain with
  | some v => (some v, false, cache)
  | none => (none, true, cache)

/-- Sign-preserving truncation of an integer to 32 bits, modelling
JavaScript's ToInt32 coercion performed by the `<<` and `&` operators. -/
def toInt32 (n : ℤ) : ℤ :=
  let m := n % 4294967296
  if m < 2147483648 then m else m - 4294967296

/-- One step of the rolling hash in `getDomainColorClass`:
`hash = ((hash << 5) - hash) + char; hash = hash & hash`. -/
def hashStep (h : ℤ) (c : ℕ) : ℤ :=
  toInt32 (toInt32 (h * 32) - h + c)

/-- The rolling hash of `getDomainColorClass` over a domain's char codes. -/
def hashDomain (domain : String) : ℤ :=
  (domain.data.map Char.toNat).foldl hashStep 0

/-- The fixed four-entry colour palette (`this.colorClasses`). -/
def colorClasses : List String :=
  ["color-orange", "color-vista-bleu", "color-amande", "color-bleu-oxford"]

/-- Colour assignment, mirroring `getDomainColorClass`: the rolling hash,
taken absolute, reduced modulo the palette size. -/
def getDomainColorClass (domain : String) : String :=
  let index := (hashDomain domain).natAbs % colorClasses.length
  colorClasses.getD index ""

/-- Lower width bound (`this.MIN_TAG_WIDTH`). -/
def MIN_TAG_WIDTH : ℤ := 280

/-- Upper width bound (`this.MAX_TAG_WIDTH`). -/
def MAX_TAG_WIDTH : ℤ := 400

/-- Width estimator, mirroring `calculateOptimalTagWidth`.  The
text-measurement primitive `m` (canvas `measureText` at a font size) is a
parameter supplied by the rendering environment; widths are rationals. -/
def calculateOptimalTagWidth (m : String → ℕ → ℚ)
    (domainText : String) (count : ℕ) : ℤ :=
  let domainWidth := m domainText 12
  let countText := Nat.repr count
  let countWidth := m countText 10
  let iconWidth : ℚ := 22
  let padding : ℚ := 24
  let countBadgeWidth : ℚ := max 30 (countWidth + 12)
  let closeButtonSpace : ℚ := 24
  let extraMargin : ℚ := 16
  let totalWidth := domainWidth + iconWidth + padding + countBadgeWidth +
    closeButtonSpace + extraMargin
  max MIN_TAG_WIDTH (min MAX_TAG_WIDTH (Int.ceil totalWidth))

/-- A domain event as dispatched to `processDomainEvent` by the message
listener. -/
structure DomainEvent where
  baseDomain : String
  fullDomain : String
  resourceType : String
  timestamp : ℕ
deriving DecidableEq, Repr

/-- A record stored in `displayedDomains`.  The `element` field of the
JavaScript object is a DOM handle with no registry-relevant state and is
omitted; its derived visual attributes (colour, width) are covered by the
pure models above. -/
structure DomainData where
  count : ℕ
  resourceType : String
deriving DecidableEq, Repr

/-- The tracker's registry state: `displayedDomains`, `domainTimeouts`,
`subdomainCounts` plus the timeout configuration.  `domainTimeouts` is
kept as its key list: every call site of `setDomainTimeout` either clears
the previous timer first or guards on key absence, so the set of armed,
uncancelled timers is exactly the map's key set and the numeric timer IDs
carry no further information. -/
@[ext]
structure TrackerState where
  displayedDomains : List (String × DomainData)
  domainTimeouts : List String
  subdomainCounts : List (String × List String)
  timeoutDuration : ℕ
  enableTimeout : Bool
deriving DecidableEq, Repr

/-- Outbound render directives: tag creation, counter update, removal of
one tag, removal of all tags. -/
inductive Directive
  | create (baseDomain : String)
  | update (baseDomain : String) (count : ℕ)
  | remove (baseDomain : String)
  | removeAll
deriving DecidableEq, Repr

/-- The tracker's initial state (constructor defaults: 5000ms timeout,
timeout enabled, empty maps). -/
def initState : TrackerState :=
  { displayedDomains := []
    domainTimeouts := []
    subdomainCounts := []
    timeoutDuration := 5000
    enableTimeout := true }

/-- Mirror of `clearDomainTimeout`: cancel and forget the armed timer for
a key, if any. -/
def clearDomainTimeout (baseDomain : String) (s : TrackerState) :
    TrackerState :=
  { s with domainTimeouts := s.domainTimeouts.filter (· ≠ baseDomain) }

/-- Mirror of `setDomainTimeout`: refuse to arm when the timeout is
disabled or the duration is not positive, otherwise arm a timer for the
key. -/
def setDomainTimeout (baseDomain : String) (s : TrackerState) :
    TrackerState :=
  if !s.enableTimeout || s.timeoutDuration ≤ 0 then s
  else
    { s with domainTimeouts :=
        if baseDomain ∈ s.domainTimeouts then s.domainTimeouts
        else baseDomain :: s.domainTimeouts }

/-- Mirror of `updateExistingDomain`: clear the timer, add the full domain
to the subdomain set, increment the counter, re-arm the timer when the
timeout is enabled with positive duration, and emit an update directive.
The `none` branch of the subdomain lookup is unreachable from the initial
state (invariant C10); the JavaScript would throw there. -/
def updateExistingDomain (baseDomain fullDomain : String)
    (existingDomain : DomainData) (s : TrackerState) :
    TrackerState × List Directive :=
  let s₁ := clearDomainTimeout baseDomain s
  let newSubs :=
    match getKey? s₁.subdomainCounts baseDomain with
    | some subs =>
        setKey s₁.subdomainCounts baseDomain
          (if fullDomain ∈ subs then subs else subs ++ [fullDomain])
    | none => s₁.subdomainCounts
  let s₂ := { s₁ with subdomainCounts := newSubs }
  let newData := { existingDomain with count := existingDomain.count + 1 }
  let s₃ :=
    { s₂ with displayedDomains := setKey s₂.displayedDomains baseDomain newData }
  let s₄ := if s₃.enableTimeout ∧ 0 < s₃.timeoutDuration then
      setDomainTimeout baseDomain s₃ else s₃
  (s₄, [Directive.update baseDomain newData.count])

/-- Mirror of `createNewDomain`: register a record with count 1, start its
subdomain set, arm a timer when the timeout is enabled with positive
duration, and emit a create directive.  Favicon loading touches only the
favicon cache, modelled separately above. -/
def createNewDomain (baseDomain fullDomain resourceType : String)
    (s : TrackerState) : TrackerState × List Directive :=
  let newDisplayed :=
    setKey s.displayedDomains baseDomain
      { count := 1, resourceType := resourceType }
  let s₁ := { s with displayedDomains := newDisplayed }
  let s₂ :=
    { s₁ with subdomainCounts := setKey s₁.subdomainCounts baseDomain [fullDomain] }
  let s₃ := if s₂.enableTimeout ∧ 0 < s₂.timeoutDuration then
      setDomainTimeout baseDomain s₂ else s₂
  (s₃, [Directive.create baseDomain])

/-- Mirror of `processDomainEvent`: dispatch on registry presence. -/
def processDomainEvent (domainEvent : DomainEvent) (s : TrackerState) :
    TrackerState × List Directive :=
  match getKey? s.displayedDomains domainEvent.baseDomain with
  | some existingDomain =>
      updateExistingDomain domainEvent.baseDomain domainEvent.fullDomain
        existingDomain s
  | none =>
      createNewDomain domainEvent.baseDomain domainEvent.fullDomain
        domainEvent.resourceType s

/-- Mirror of `removeDomain`: no-op without a directive when the record is
absent; otherwise clear the timer, drop the record and its subdomain set,
and emit a remove directive. -/
def removeDomain (baseDomain : String) (s : TrackerState) :
    TrackerState × List Directive :=
  match getKey? s.displayedDomains baseDomain with
  | none => (s, [])
  | some _ =>
    let s₁ := clearDomainTimeout baseDomain s
    let s₂ :=
      { s₁ with displayedDomains := eraseKey s₁.displayedDomains baseDomain,
                subdomainCounts := eraseKey s₁.subdomainCounts baseDomain }
    (s₂, [Directive.remove baseDomain])

/-- Mirror of `removeTagManually`: delegates to `removeDomain`. -/
def removeTagManually (baseDomain : String) (s : TrackerState) :
    TrackerState × List Directive :=
  removeDomain baseDomain s

/-- Mirror of `clearAllTags`: cancel every timer, empty all maps, emit one
remove-all directive. -/
def clearAllTags (s : TrackerState) : TrackerState × List Directive :=
  ({ s with displayedDomains := [], domainTimeouts := [],
            subdomainCounts := [] },
   [Directive.removeAll])

/-- Mirror of `clearAllTimeouts`: cancel every timer, keep the records. -/
def clearAllTimeouts (s : TrackerState) : TrackerState :=
  { s with domainTimeouts := [] }

/-- Mirror of `setTimeoutsForExistingTags`: arm a timer for every record
that lacks one. -/
def setTimeoutsForExistingTags (s : TrackerState) : TrackerState :=
  s.displayedDomains.foldl
    (fun acc p =>
      if p.1 ∈ acc.domainTimeouts then acc else setDomainTimeout p.1 acc)
    s

/-- Mirror of `updateTimeoutSettings`: `(timeoutSeconds || 5) * 1000` maps
a zero (falsy) value to the 5-second default; then either arm timers for
all records or cancel them all, according to the new enabled flag. -/
def updateTimeoutSettings (timeoutSeconds : ℕ) (enableTimeout : Bool)
    (s : TrackerState) : TrackerState :=
  let newDuration := (if timeoutSeconds = 0 then 5 else timeoutSeconds) * 1000
  let s₁ :=
    { s with timeoutDuration := newDuration, enableTimeout := enableTimeout }
  if s₁.enableTimeout then setTimeoutsForExistingTags s₁
  else clearAllTimeouts s₁

/-- Actions driving the tracker: an incoming domain event, an armed expiry
timer firing, a manual dismissal via the close button, a global clear, and
a timeout-settings change. -/
inductive Act
  | ev (e : DomainEvent)
  | fire (baseDomain : String)
  | dismiss (baseDomain : String)
  | clearAll
  | settings (timeoutSeconds : ℕ) (enableTimeout : Bool)
deriving DecidableEq, Repr

/-- One scheduler step.  A `fire` step runs the timer callback
(`removeDomain`) only when that key's timer is still armed; a cancelled
timer never runs. -/
def step (s : TrackerState) (a : Act) : TrackerState × List Directive :=
  match a with
  | .ev e => processDomainEvent e s
  | .fire d => if d ∈ s.domainTimeouts then removeDomain d s else (s, [])
  | .dismiss d => removeTagManually d s
  | .clearAll => clearAllTags s
  | .settings ts en => (updateTimeoutSettings ts en s, [])

/-- Run a list of actions, accumulating the emitted directives. -/
def runTrace (s : TrackerState) (acts : List Act) :
    TrackerState × List Directive :=
  match acts with
  | [] => (s, [])
  | a :: rest =>
    let r := step s a
    let r₂ := runTrace r.1 rest
    (r₂.1, r.2 ++ r₂.2)

/-- State with the timeout flag forced off, used to compare behaviour
against a TTL-disabled configuration. -/
def forgetFlag (s : TrackerState) : TrackerState :=
  { s with enableTimeout := false }

/-- Actions that are incoming events or timer firings (the spontaneous
actions of a run without manual dismissal, global clear, or
configuration changes). -/
def isEventOrFire : Act → Bool
  | .ev _ => true
  | .fire _ => true
  | _ => false

/-- Actions that change the timeout configuration. -/
def isSettingsAct : Act → Bool
  | .settings _ _ => true
  | _ => false

/-- Configurations under which `setDomainTimeout` refuses to arm: the
timeout is disabled, or its duration is zero. -/
def ttlInactive (s : TrackerState) : Prop :=
  s.enableTimeout = false ∨ s.timeoutDuration = 0

/-- Structural registry invariant: the subdomain map has exactly the keys
of the record map, and every armed timer belongs to a live record. -/
def RegistryInv (s : TrackerState) : Prop :=
  (∀ d, (getKey? s.subdomainCounts d).isSome ↔
    (getKey? s.displayedDomains d).isSome) ∧
  (∀ d ∈ s.domainTimeouts, (getKey? s.displayedDomains d).isSome)

/-- A concrete text-measurement primitive (width proportional to length
and font size) used to witness the width-estimator properties. -/
def measureLenTimesSize (s : String) (fontSize : ℕ) : ℚ :=
  s.length * fontSize

/-- A concrete event sequence (three events for one base domain, two
distinct full domains) used to witness the merge-correctness theorem. -/
def mergeWitnessEvents : List DomainEvent :=
  [{ baseDomain := "a.com", fullDomain := "x.a.com",
     resourceType := "script", timestamp := 0 },
   { baseDomain := "a.com", fullDomain := "y.a.com",
     resourceType := "script", timestamp := 1 },
   { baseDomain := "a.com", fullDomain := "x.a.com",
     resourceType := "script", timestamp := 2 }]

theorem getKey_setKey {α : Type} (l : List (String × α)) (k k₂ : String)
    (v : α) :
    getKey? (setKey l k v) k₂ = if k = k₂ then some v else getKey? l k₂ := by
  induction l with
  | nil => simp [setKey, getKey?]
  | cons p rest ih =>
    obtain ⟨k₃, v₃⟩ := p
    by_cases h₃ : k₃ = k
    · subst h₃
      by_cases h₂ : k₃ = k₂ <;> simp [setKey, getKey?, h₂]
    · by_cases h₂ : k₃ = k₂
      · subst h₂
        have : ¬ k = k₃ := fun h => h₃ h.symm
        simp [setKey, getKey?, h₃, this]
      · simp [setKey, getKey?, h₃, h₂, ih]

theorem eraseKey_cons {α : Type} (k₃ k : String) (v₃ : α)
    (rest : List (String × α)) :
    eraseKey ((k₃, v₃) :: rest) k =
      if k₃ = k then eraseKey rest k else (k₃, v₃) :: eraseKey rest k := by
  by_cases h : k₃ = k <;> simp [eraseKey, List.filter_cons, h]

theorem getKey_eraseKey {α : Type} (l : List (String × α)) (k k₂ : String) :
    getKey? (eraseKey l k) k₂ = if k = k₂ then none else getKey? l k₂ := by
  induction l with
  | nil => simp [eraseKey, getKey?]
  | cons p rest ih =>
    obtain ⟨k₃, v₃⟩ := p
    rw [eraseKey_cons]
    by_cases h₃ : k₃ = k
    · subst h₃
      rw [if_pos rfl, ih]
      by_cases h₂ : k₃ = k₂
      · simp [h₂]
      · simp [getKey?, h₂]
    · rw [if_neg h₃]
      by_cases h₂ : k₃ = k₂
      · subst h₂
        have hk : ¬ k = k₃ := fun h => h₃ h.symm
        simp [getKey?, hk]
      · simp [getKey?, h₂, ih]

theorem getKey_isSome_iff_mem_keys {α : Type} (l : List (String × α))
    (d : String) :
    (getKey? l d).isSome ↔ d ∈ l.map Prod.fst := by
  induction l with
  | nil => simp [getKey?]
  | cons p rest ih =>
    obtain ⟨k, v⟩ := p
    by_cases h : k = d
    · subst h; simp [getKey?]
    · have h₂ : ¬ d = k := fun hh => h hh.symm
      simp [getKey?, h, h₂, ih]

@[simp] theorem clearDomainTimeout_displayedDomains (d : String)
    (s : TrackerState) :
    (clearDomainTimeout d s).displayedDomains = s.displayedDomains := rfl

@[simp] theorem clearDomainTimeout_subdomainCounts (d : String)
    (s : TrackerState) :
    (clearDomainTimeout d s).subdomainCounts = s.subdomainCounts := rfl

@[simp] theorem clearDomainTimeout_timeoutDuration (d : String)
    (s : TrackerState) :
    (clearDomainTimeout d s).timeoutDuration = s.timeoutDuration := rfl

@[simp] theorem clearDomainTimeout_enableTimeout (d : String)
    (s : TrackerState) :
    (clearDomainTimeout d s).enableTimeout = s.enableTimeout := rfl

@[simp] theorem setDomainTimeout_displayedDomains (d : String)
    (s : TrackerState) :
    (setDomainTimeout d s).displayedDomains = s.displayedDomains := by
  unfold setDomainTimeout; split <;> rfl

@[simp] theorem setDomainTimeout_subdomainCounts (d : String)
    (s : TrackerState) :
    (setDomainTimeout d s).subdomainCounts = s.subdomainCounts := by
  unfold setDomainTimeout; split <;> rfl

@[simp] theorem setDomainTimeout_timeoutDuration (d : String)
    (s : TrackerState) :
    (setDomainTimeout d s).timeoutDuration = s.timeoutDuration := by
  unfold setDomainTimeout; split <;> rfl

@[simp] theorem setDomainTimeout_enableTimeout (d : String)
    (s : TrackerState) :
    (setDomainTimeout d s).enableTimeout = s.enableTimeout := by
  unfold setDomainTimeout; split <;> rfl

theorem setDomainTimeout_inactive (d : String) (s : TrackerState)
    (h : ttlInactive s) : setDomainTimeout d s = s := by
  unfold setDomainTimeout
  rcases h with h | h <;> simp [h]

theorem setDomainTimeout_mem (d k : String) (s : TrackerState)
    (h : k ∈ (setDomainTimeout d s).domainTimeouts) :
    k ∈ s.domainTimeouts ∨ k = d := by
  unfold setDomainTimeout at h
  split at h
  · exact Or.inl h
  · simp only at h
    split at h
    · exact Or.inl h
    · rcases List.mem_cons.mp h with h | h
      · exact Or.inr h
      · exact Or.inl h

theorem processDomainEvent_new (e : DomainEvent) (s : TrackerState)
    (h0 : getKey? s.displayedDomains e.baseDomain = none) :
    getKey? (processDomainEvent e s).1.displayedDomains e.baseDomain =
      some { count := 1, resourceType := e.resourceType } ∧
    getKey? (processDomainEvent e s).1.subdomainCounts e.baseDomain =
      some [e.fullDomain] ∧
    (processDomainEvent e s).2 = [Directive.create e.baseDomain] := by
  simp only [processDomainEvent, h0]
  unfold createNewDomain
  refine ⟨?_, ?_, rfl⟩ <;>
    simp [apply_ite TrackerState.displayedDomains,
      apply_ite TrackerState.subdomainCounts, getKey_setKey]

theorem processDomainEvent_existing (e : DomainEvent) (s : TrackerState)
    (data : DomainData) (subs : List String)
    (hd : getKey? s.displayedDomains e.baseDomain = some data)
    (hs : getKey? s.subdomainCounts e.baseDomain = some subs) :
    getKey? (processDomainEvent e s).1.displayedDomains e.baseDomain =
      some { data with count := data.count + 1 } ∧
    getKey? (processDomainEvent e s).1.subdomainCounts e.baseDomain =
      some (if e.fullDomain ∈ subs then subs else subs ++ [e.fullDomain]) ∧
    (processDomainEvent e s).2 =
      [Directive.update e.baseDomain (data.count + 1)] := by
  simp only [processDomainEvent, hd]
  unfold updateExistingDomain
  refine ⟨?_, ?_, rfl⟩ <;>
    simp [apply_ite TrackerState.displayedDomains,
      apply_ite TrackerState.subdomainCounts, hs, getKey_setKey]

@[simp] theorem runTrace_nil (s : TrackerState) : runTrace s [] = (s, []) :=
  rfl

theorem runTrace_cons_fst (s : TrackerState) (a : Act) (acts : List Act) :
    (runTrace s (a :: acts)).1 = (runTrace (step s a).1 acts).1 := rfl

theorem runTrace_cons_snd (s : TrackerState) (a : Act) (acts : List Act) :
    (runTrace s (a :: acts)).2 =
      (step s a).2 ++ (runTrace (step s a).1 acts).2 := rfl

theorem mergeRun (d : String) (evs : List DomainEvent) :
    ∀ (s : TrackerState) (data : DomainData) (subs : List String),
    (∀ e ∈ evs, e.baseDomain = d) →
    getKey? s.displayedDomains d = some data →
    getKey? s.subdomainCounts d = some subs →
    ∃ data₂ subs₂,
      getKey? (runTrace s (evs.map Act.ev)).1.displayedDomains d =
        some data₂ ∧
      data₂.count = data.count + evs.length ∧
      getKey? (runTrace s (evs.map Act.ev)).1.subdomainCounts d =
        some subs₂ ∧
      (∀ x, x ∈ subs₂ ↔ x ∈ subs ∨ x ∈ evs.map DomainEvent.fullDomain) := by
  induction evs with
  | nil =>
    intro s data subs _ hd hs
    exact ⟨data, subs, by simpa using hd, by simp, by simpa using hs,
      fun x => by simp⟩
  | cons e rest ih =>
    intro s data subs hall hd hs
    have hb : e.baseDomain = d := hall e (by simp)
    obtain ⟨h₁, h₂, _⟩ :=
      processDomainEvent_existing e s data subs (by rwa [hb]) (by rwa [hb])
    obtain ⟨data₂, subs₂, g₁, g₂, g₃, g₄⟩ :=
      ih (processDomainEvent e s).1 _ _
        (fun e₂ he => hall e₂ (List.mem_cons_of_mem _ he))
        (by rwa [hb] at h₁) (by rwa [hb] at h₂)
    refine ⟨data₂, subs₂, ?_, ?_, ?_, ?_⟩
    · simpa [runTrace_cons_fst, step] using g₁
    · simp only [g₂, List.length_cons]
      omega
    · simpa [runTrace_cons_fst, step] using g₃
    · intro x
      rw [g₄ x]
      by_cases hm : e.fullDomain ∈ subs
      · simp only [if_pos hm, List.map_cons, List.mem_cons]
        constructor
        · rintro (h | h)
          · exact Or.inl h
          · exact Or.inr (Or.inr h)
        · rintro (h | h | h)
          · exact Or.inl h
          · exact Or.inl (h ▸ hm)
          · exact Or.inr h
      · simp only [if_neg hm, List.map_cons, List.mem_cons,
          List.mem_append, List.mem_singleton]
        tauto

/-- Claim C1: for every sequence of N events delivered for the same base
domain with no intervening eviction or dismissal, starting from a state
with no record for that domain, the resulting record's occurrence count
equals N (every event increments the counter, including repeated events
for an already-seen full domain) and its seen-subdomain set equals the
set of distinct full-domain values among the N events. -/
theorem merge_correctness (s : TrackerState) (d : String)
    (evs : List DomainEvent) (hne : evs ≠ [])
    (hall : ∀ e ∈ evs, e.baseDomain = d)
    (h0 : getKey? s.displayedDomains d = none) :
    ∃ data subs,
      getKey? (runTrace s (evs.map Act.ev)).1.displayedDomains d =
        some data ∧
      data.count = evs.length ∧
      getKey? (runTrace s (evs.map Act.ev)).1.subdomainCounts d =
        some subs ∧
      (∀ x, x ∈ subs ↔ x ∈ evs.map DomainEvent.fullDomain) := by
  cases evs with
  | nil => exact absurd rfl hne
  | cons e rest =>
    have hb : e.baseDomain = d := hall e (by simp)
    obtain ⟨h₁, h₂, _⟩ := processDomainEvent_new e s (by rwa [hb])
    obtain ⟨data₂, subs₂, g₁, g₂, g₃, g₄⟩ :=
      mergeRun d rest (processDomainEvent e s).1 _ _
        (fun e₂ he => hall e₂ (List.mem_cons_of_mem _ he))
        (by rwa [hb] at h₁) (by rwa [hb] at h₂)
    refine ⟨data₂, subs₂, ?_, ?_, ?_, ?_⟩
    · simpa [runTrace_cons_fst, step] using g₁
    · simp only [g₂, List.length_cons]
      omega
    · simpa [runTrace_cons_fst, step] using g₃
    · intro x
      rw [g₄ x]
      simp

theorem foldTimeouts_aux (l : List (String × DomainData)) :
    ∀ acc : TrackerState,
    ((l.foldl (fun acc p =>
        if p.1 ∈ acc.domainTimeouts then acc else setDomainTimeout p.1 acc)
      acc).displayedDomains = acc.displayedDomains ∧
     (l.foldl (fun acc p =>
        if p.1 ∈ acc.domainTimeouts then acc else setDomainTimeout p.1 acc)
      acc).subdomainCounts = acc.subdomainCounts ∧
     ∀ d ∈ (l.foldl (fun acc p =>
        if p.1 ∈ acc.domainTimeouts then acc else setDomainTimeout p.1 acc)
       acc).domainTimeouts,
       d ∈ acc.domainTimeouts ∨ d ∈ l.map Prod.fst) := by
  induction l with
  | nil => intro acc; simp
  | cons p rest ih =>
    intro acc
    simp only [List.foldl_cons]
    obtain ⟨ih₁, ih₂, ih₃⟩ :=
      ih (if p.1 ∈ acc.domainTimeouts then acc else setDomainTimeout p.1 acc)
    refine ⟨?_, ?_, ?_⟩
    · rw [ih₁]
      split <;> simp
    · rw [ih₂]
      split <;> simp
    · intro d hd
      rcases ih₃ d hd with h | h
      · split at h
        · exact Or.inl h
        · rcases setDomainTimeout_mem _ _ _ h with h | h
          · exact Or.inl h
          · exact Or.inr (by simp [h])
      · exact Or.inr (by simp [h])

theorem setTimeoutsForExistingTags_spec (s : TrackerState) :
    (setTimeoutsForExistingTags s).displayedDomains = s.displayedDomains ∧
    (setTimeoutsForExistingTags s).subdomainCounts = s.subdomainCounts ∧
    ∀ d ∈ (setTimeoutsForExistingTags s).domainTimeouts,
      d ∈ s.domainTimeouts ∨ d ∈ s.displayedDomains.map Prod.fst :=
  foldTimeouts_aux s.displayedDomains s

theorem step_preserves_RegistryInv (s : TrackerState) (a : Act)
    (h : RegistryInv s) : RegistryInv (step s a).1 := by
  obtain ⟨h₁, h₂⟩ := h
  cases a with
  | ev e =>
    show RegistryInv (processDomainEvent e s).1
    cases hd : getKey? s.displayedDomains e.baseDomain with
    | none =>
      unfold processDomainEvent createNewDomain
      rw [hd]
      constructor
      · intro d
        simp only [apply_ite TrackerState.displayedDomains,
          apply_ite TrackerState.subdomainCounts,
          setDomainTimeout_displayedDomains, setDomainTimeout_subdomainCounts,
          ite_self]
        simp only [getKey_setKey]
        by_cases hb : e.baseDomain = d
        · simp [hb]
        · simp [hb, h₁ d]
      · intro d hdm
        simp only [apply_ite TrackerState.displayedDomains,
          setDomainTimeout_displayedDomains, ite_self]
        simp only [getKey_setKey]
        by_cases hb : e.baseDomain = d
        · simp [hb]
        · simp only [if_neg hb]
          have hdm₂ : d ∈ s.domainTimeouts := by
            revert hdm
            simp only [apply_ite TrackerState.domainTimeouts]
            split
            · intro hdm
              rcases setDomainTimeout_mem _ _ _ hdm with hh | hh
              · exact hh
              · exact absurd hh.symm hb
            · exact fun hdm => hdm
          exact h₂ d hdm₂
    | some data =>
      have hsub : (getKey? s.subdomainCounts e.baseDomain).isSome := by
        rw [h₁]
        simp [hd]
      obtain ⟨subs, hs⟩ := Option.isSome_iff_exists.mp hsub
      unfold processDomainEvent updateExistingDomain
      rw [hd]
      simp only [clearDomainTimeout_subdomainCounts, hs]
      constructor
      · intro d
        simp only [apply_ite TrackerState.displayedDomains,
          apply_ite TrackerState.subdomainCounts,
          setDomainTimeout_displayedDomains, setDomainTimeout_subdomainCounts,
          ite_self]
        simp only [getKey_setKey]
        by_cases hb : e.baseDomain = d
        · simp [hb]
        · simp [hb, h₁ d]
      · intro d hdm
        simp only [apply_ite TrackerState.displayedDomains,
          setDomainTimeout_displayedDomains, ite_self]
        simp only [getKey_setKey]
        by_cases hb : e.baseDomain = d
        · simp [hb]
        · simp only [if_neg hb]
          have hdm₂ : d ∈ s.domainTimeouts := by
            revert hdm
            simp only [apply_ite TrackerState.domainTimeouts]
            split
            · intro hdm
              rcases setDomainTimeout_mem _ _ _ hdm with hh | hh
              · exact List.mem_of_mem_filter hh
              · exact absurd hh.symm hb
            · intro hdm
              exact List.mem_of_mem_filter hdm
          exact h₂ d hdm₂
  | fire d =>
    show RegistryInv (if d ∈ s.domainTimeouts then removeDomain d s
      else (s, [])).1
    split
    · cases hd : getKey? s.displayedDomains d with
      | none => simpa [removeDomain, hd] using ⟨h₁, h₂⟩
      | some data =>
        unfold removeDomain
        rw [hd]
        constructor
        · intro d₂
          simp only [getKey_eraseKey]
          by_cases hb : d = d₂
          · simp [hb]
          · simp [hb, h₁ d₂]
        · intro d₂ hdm
          have hmem : d₂ ∈ s.domainTimeouts ∧ d₂ ≠ d := by
            simpa [clearDomainTimeout] using List.mem_filter.mp hdm
          simp only [getKey_eraseKey]
          rw [if_neg (fun hh => hmem.2 hh.symm)]
          exact h₂ d₂ hmem.1
    · exact ⟨h₁, h₂⟩
  | dismiss d =>
    show RegistryInv (removeTagManually d s).1
    unfold removeTagManually
    cases hd : getKey? s.displayedDomains d with
    | none => simpa [removeDomain, hd] using ⟨h₁, h₂⟩
    | some data =>
      unfold removeDomain
      rw [hd]
      constructor
      · intro d₂
        simp only [getKey_eraseKey]
        by_cases hb : d = d₂
        · simp [hb]
        · simp [hb, h₁ d₂]
      · intro d₂ hdm
        have hmem : d₂ ∈ s.domainTimeouts ∧ d₂ ≠ d := by
          simpa [clearDomainTimeout] using List.mem_filter.mp hdm
        simp only [getKey_eraseKey]
        rw [if_neg (fun hh => hmem.2 hh.symm)]
        exact h₂ d₂ hmem.1
  | clearAll =>
    show RegistryInv (clearAllTags s).1
    simp [clearAllTags, RegistryInv, getKey?]
  | settings ts en =>
    show RegistryInv (updateTimeoutSettings ts en s)
    cases en with
    | false =>
      have hred : updateTimeoutSettings ts false s =
          clearAllTimeouts
            { s with timeoutDuration := (if ts = 0 then 5 else ts) * 1000,
                     enableTimeout := false } := rfl
      rw [hred]
      exact ⟨fun d => h₁ d,
        fun d hd => absurd hd (by simp [clearAllTimeouts])⟩
    | true =>
      have hred : updateTimeoutSettings ts true s =
          setTimeoutsForExistingTags
            { s with timeoutDuration := (if ts = 0 then 5 else ts) * 1000,
                     enableTimeout := true } := rfl
      rw [hred]
      obtain ⟨g₁, g₂, g₃⟩ := setTimeoutsForExistingTags_spec
        { s with timeoutDuration := (if ts = 0 then 5 else ts) * 1000,
                 enableTimeout := true }
      constructor
      · intro d
        rw [g₁, g₂]
        exact h₁ d
      · intro d hdm
        rw [g₁]
        rcases g₃ d hdm with hh | hh
        · exact h₂ d hh
        · exact (getKey_isSome_iff_mem_keys _ _).mpr hh

theorem runTrace_preserves_RegistryInv (acts : List Act) :
    ∀ s : TrackerState, RegistryInv s → RegistryInv (runTrace s acts).1 := by
  induction acts with
  | nil => intro s h; simpa using h
  | cons a rest ih =>
    intro s h
    rw [runTrace_cons_fst]
    exact ih _ (step_preserves_RegistryInv s a h)

@[simp] theorem processDomainEvent_enableTimeout (e : DomainEvent)
    (s : TrackerState) :
    (processDomainEvent e s).1.enableTimeout = s.enableTimeout := by
  unfold processDomainEvent
  cases hd : getKey? s.displayedDomains e.baseDomain with
  | none =>
    unfold createNewDomain
    simp [apply_ite TrackerState.enableTimeout]
  | some data =>
    unfold updateExistingDomain
    simp [apply_ite TrackerState.enableTimeout]

@[simp] theorem processDomainEvent_timeoutDuration (e : DomainEvent)
    (s : TrackerState) :
    (processDomainEvent e s).1.timeoutDuration = s.timeoutDuration := by
  unfold processDomainEvent
  cases hd : getKey? s.displayedDomains e.baseDomain with
  | none =>
    unfold createNewDomain
    simp [apply_ite TrackerState.timeoutDuration]
  | some data =>
    unfold updateExistingDomain
    simp [apply_ite TrackerState.timeoutDuration]

theorem processDomainEvent_displayedDomains_setKey (e : DomainEvent)
    (s : TrackerState) :
    ∃ v, (processDomainEvent e s).1.displayedDomains =
      setKey s.displayedDomains e.baseDomain v := by
  unfold processDomainEvent
  cases hd : getKey? s.displayedDomains e.baseDomain with
  | none =>
    unfold createNewDomain
    exact ⟨{ count := 1, resourceType := e.resourceType },
      by simp [apply_ite TrackerState.displayedDomains]⟩
  | some data =>
    unfold updateExistingDomain
    exact ⟨{ data with count := data.count + 1 },
      by simp [apply_ite TrackerState.displayedDomains]⟩

theorem processDomainEvent_directives (e : DomainEvent) (s : TrackerState) :
    (processDomainEvent e s).2 = [Directive.create e.baseDomain] ∨
    ∃ c, (processDomainEvent e s).2 =
      [Directive.update e.baseDomain c] := by
  unfold processDomainEvent
  cases hd : getKey? s.displayedDomains e.baseDomain with
  | none => exact Or.inl rfl
  | some data => exact Or.inr ⟨_, rfl⟩

theorem processDomainEvent_domainTimeouts_inactive (e : DomainEvent)
    (s : TrackerState) (hin : ttlInactive s) :
    (processDomainEvent e s).1.domainTimeouts ⊆ s.domainTimeouts := by
  have hc : ¬(s.enableTimeout = true ∧ 0 < s.timeoutDuration) := by
    rcases hin with h | h <;> simp [h]
  unfold processDomainEvent
  cases hd : getKey? s.displayedDomains e.baseDomain with
  | none =>
    unfold createNewDomain
    intro x hx
    simp [apply_ite TrackerState.domainTimeouts, hc] at hx
    exact hx
  | some data =>
    unfold updateExistingDomain
    intro x hx
    simp [apply_ite TrackerState.domainTimeouts, hc,
      clearDomainTimeout, List.mem_filter] at hx
    exact hx.1

theorem removeDomain_timeoutDuration (d : String) (s : TrackerState) :
    (removeDomain d s).1.timeoutDuration = s.timeoutDuration := by
  unfold removeDomain
  cases hd : getKey? s.displayedDomains d <;> rfl

theorem removeDomain_enableTimeout (d : String) (s : TrackerState) :
    (removeDomain d s).1.enableTimeout = s.enableTimeout := by
  unfold removeDomain
  cases hd : getKey? s.displayedDomains d <;> rfl

theorem removeDomain_domainTimeouts_subset (d : String) (s : TrackerState) :
    (removeDomain d s).1.domainTimeouts ⊆ s.domainTimeouts := by
  unfold removeDomain
  cases hd : getKey? s.displayedDomains d with
  | none => exact fun x hx => hx
  | some data => exact fun x hx => List.mem_of_mem_filter hx

theorem step_timeoutDuration (s : TrackerState) (a : Act)
    (hns : isSettingsAct a = false) :
    (step s a).1.timeoutDuration = s.timeoutDuration := by
  cases a with
  | ev e => exact processDomainEvent_timeoutDuration e s
  | fire d =>
    show (if d ∈ s.domainTimeouts then removeDomain d s
      else (s, [])).1.timeoutDuration = s.timeoutDuration
    split
    · exact removeDomain_timeoutDuration d s
    · rfl
  | dismiss d => exact removeDomain_timeoutDuration d s
  | clearAll => rfl
  | settings ts en => simp [isSettingsAct] at hns

theorem step_enableTimeout (s : TrackerState) (a : Act)
    (hns : isSettingsAct a = false) :
    (step s a).1.enableTimeout = s.enableTimeout := by
  cases a with
  | ev e => exact processDomainEvent_enableTimeout e s
  | fire d =>
    show (if d ∈ s.domainTimeouts then removeDomain d s
      else (s, [])).1.enableTimeout = s.enableTimeout
    split
    · exact removeDomain_enableTimeout d s
    · rfl
  | dismiss d => exact removeDomain_enableTimeout d s
  | clearAll => rfl
  | settings ts en => simp [isSettingsAct] at hns

theorem processDomainEvent_preserves_isSome (e : DomainEvent)
    (s : TrackerState) (d : String)
    (h : (getKey? s.displayedDomains d).isSome) :
    (getKey? (processDomainEvent e s).1.displayedDomains d).isSome := by
  obtain ⟨v, hv⟩ := processDomainEvent_displayedDomains_setKey e s
  rw [hv, getKey_setKey]
  by_cases hb : e.baseDomain = d
  · simp [hb]
  · simpa [hb] using h

theorem step_inactive (s : TrackerState) (a : Act)
    (hin : ttlInactive s) (hto : s.domainTimeouts = [])
    (hef : isEventOrFire a = true) :
    ttlInactive (step s a).1 ∧ (step s a).1.domainTimeouts = [] ∧
    (∀ d, Directive.remove d ∉ (step s a).2) ∧
    Directive.removeAll ∉ (step s a).2 ∧
    (∀ d, (getKey? s.displayedDomains d).isSome →
      (getKey? (step s a).1.displayedDomains d).isSome) := by
  cases a with
  | ev e =>
    refine ⟨?_, ?_, ?_, ?_, ?_⟩
    · rcases hin with h | h
      · exact Or.inl ((processDomainEvent_enableTimeout e s).trans h)
      · exact Or.inr ((processDomainEvent_timeoutDuration e s).trans h)
    · have hsub := processDomainEvent_domainTimeouts_inactive e s hin
      rw [hto] at hsub
      exact List.subset_nil.mp hsub
    · intro d
      rcases processDomainEvent_directives e s with h | ⟨c, h⟩ <;>
        show Directive.remove d ∉ (processDomainEvent e s).2 <;>
        simp [h]
    · rcases processDomainEvent_directives e s with h | ⟨c, h⟩ <;>
        show Directive.removeAll ∉ (processDomainEvent e s).2 <;>
        simp [h]
    · exact fun d => processDomainEvent_preserves_isSome e s d
  | fire d =>
    have hcond : ¬ d ∈ s.domainTimeouts := by simp [hto]
    have hstep : step s (Act.fire d) = (s, []) := by
      simp [step, hcond]
    rw [hstep]
    exact ⟨hin, hto, by simp, by simp, fun d h => h⟩
  | dismiss d => simp [isEventOrFire] at hef
  | clearAll => simp [isEventOrFire] at hef
  | settings ts en => simp [isEventOrFire] at hef

theorem run_inactive (acts : List Act) :
    ∀ s : TrackerState, ttlInactive s → s.domainTimeouts = [] →
    (∀ a ∈ acts, isEventOrFire a = true) →
    ttlInactive (runTrace s acts).1 ∧
    (runTrace s acts).1.domainTimeouts = [] ∧
    (∀ d, Directive.remove d ∉ (runTrace s acts).2) ∧
    Directive.removeAll ∉ (runTrace s acts).2 ∧
    (∀ d, (getKey? s.displayedDomains d).isSome →
      (getKey? (runTrace s acts).1.displayedDomains d).isSome) := by
  induction acts with
  | nil =>
    intro s h₁ h₂ _
    exact ⟨h₁, h₂, by simp, by simp, fun d h => by simpa using h⟩
  | cons a rest ih =>
    intro s h₁ h₂ hall
    obtain ⟨s₁, s₂, s₃, s₄, s₅⟩ := step_inactive s a h₁ h₂ (hall a (by simp))
    obtain ⟨r₁, r₂, r₃, r₄, r₅⟩ :=
      ih (step s a).1 s₁ s₂ (fun b hb => hall b (List.mem_cons_of_mem _ hb))
    refine ⟨?_, ?_, ?_, ?_, ?_⟩
    · rw [runTrace_cons_fst]; exact r₁
    · rw [runTrace_cons_fst]; exact r₂
    · intro d
      rw [runTrace_cons_snd]
      simp only [List.mem_append]
      rintro (h | h)
      · exact s₃ d h
      · exact r₃ d h
    · rw [runTrace_cons_snd]
      simp only [List.mem_append]
      rintro (h | h)
      · exact s₄ h
      · exact r₄ h
    · intro d hd
      rw [runTrace_cons_fst]
      exact r₅ d (s₅ d hd)

theorem step_preserves_inactive (s : TrackerState) (a : Act)
    (hin : ttlInactive s) (hns : isSettingsAct a = false) :
    ttlInactive (step s a).1 := by
  rcases hin with h | h
  · exact Or.inl ((step_enableTimeout s a hns).trans h)
  · exact Or.inr ((step_timeoutDuration s a hns).trans h)

theorem step_inactive_timeouts_subset (s : TrackerState) (a : Act)
    (hin : ttlInactive s) (hns : isSettingsAct a = false) :
    (step s a).1.domainTimeouts ⊆ s.domainTimeouts := by
  cases a with
  | ev e => exact processDomainEvent_domainTimeouts_inactive e s hin
  | fire d =>
    show (if d ∈ s.domainTimeouts then removeDomain d s
      else (s, [])).1.domainTimeouts ⊆ s.domainTimeouts
    split
    · exact removeDomain_domainTimeouts_subset d s
    · exact fun x hx => hx
  | dismiss d => exact removeDomain_domainTimeouts_subset d s
  | clearAll => exact fun x hx => by simp [step, clearAllTags] at hx
  | settings ts en => simp [isSettingsAct] at hns

theorem run_inactive_timeouts_subset (acts : List Act) :
    ∀ s : TrackerState, ttlInactive s →
    (∀ a ∈ acts, isSettingsAct a = false) →
    (runTrace s acts).1.domainTimeouts ⊆ s.domainTimeouts := by
  induction acts with
  | nil => intro s _ _; simp
  | cons a rest ih =>
    intro s hin hall
    rw [runTrace_cons_fst]
    exact fun x hx =>
      step_inactive_timeouts_subset s a hin (hall a (by simp))
        (ih (step s a).1
          (step_preserves_inactive s a hin (hall a (by simp)))
          (fun b hb => hall b (List.mem_cons_of_mem _ hb)) hx)

@[simp] theorem forgetFlag_displayedDomains (s : TrackerState) :
    (forgetFlag s).displayedDomains = s.displayedDomains := rfl

@[simp] theorem forgetFlag_domainTimeouts (s : TrackerState) :
    (forgetFlag s).domainTimeouts = s.domainTimeouts := rfl

@[simp] theorem forgetFlag_subdomainCounts (s : TrackerState) :
    (forgetFlag s).subdomainCounts = s.subdomainCounts := rfl

@[simp] theorem forgetFlag_timeoutDuration (s : TrackerState) :
    (forgetFlag s).timeoutDuration = s.timeoutDuration := rfl

@[simp] theorem forgetFlag_enableTimeout (s : TrackerState) :
    (forgetFlag s).enableTimeout = false := rfl

theorem createNewDomain_forgetFlag (b f rt : String) (s : TrackerState)
    (hz : s.timeoutDuration = 0) :
    createNewDomain b f rt (forgetFlag s) =
      (forgetFlag (createNewDomain b f rt s).1,
       (createNewDomain b f rt s).2) := by
  unfold createNewDomain
  simp [forgetFlag, hz]

theorem updateExistingDomain_forgetFlag (b f : String) (data : DomainData)
    (s : TrackerState) (hz : s.timeoutDuration = 0) :
    updateExistingDomain b f data (forgetFlag s) =
      (forgetFlag (updateExistingDomain b f data s).1,
       (updateExistingDomain b f data s).2) := by
  unfold updateExistingDomain
  simp [forgetFlag, clearDomainTimeout, hz]

theorem removeDomain_forgetFlag (d : String) (s : TrackerState) :
    removeDomain d (forgetFlag s) =
      (forgetFlag (removeDomain d s).1, (removeDomain d s).2) := by
  unfold removeDomain
  simp only [forgetFlag_displayedDomains]
  cases hd : getKey? s.displayedDomains d with
  | none => rfl
  | some data => simp [forgetFlag, clearDomainTimeout]

theorem processDomainEvent_forgetFlag (e : DomainEvent) (s : TrackerState)
    (hz : s.timeoutDuration = 0) :
    processDomainEvent e (forgetFlag s) =
      (forgetFlag (processDomainEvent e s).1,
       (processDomainEvent e s).2) := by
  unfold processDomainEvent
  simp only [forgetFlag_displayedDomains]
  cases hd : getKey? s.displayedDomains e.baseDomain with
  | none => exact createNewDomain_forgetFlag _ _ _ s hz
  | some data => exact updateExistingDomain_forgetFlag _ _ data s hz

theorem step_forgetFlag (s : TrackerState) (a : Act)
    (hz : s.timeoutDuration = 0) (hns : isSettingsAct a = false) :
    step (forgetFlag s) a = (forgetFlag (step s a).1, (step s a).2) := by
  cases a with
  | ev e => exact processDomainEvent_forgetFlag e s hz
  | fire d =>
    by_cases hm : d ∈ s.domainTimeouts
    · have h₁ : step (forgetFlag s) (Act.fire d) =
          removeDomain d (forgetFlag s) := by
        simp [step, hm]
      have h₂ : step s (Act.fire d) = removeDomain d s := by
        simp [step, hm]
      rw [h₁, h₂]
      exact removeDomain_forgetFlag d s
    · have h₁ : step (forgetFlag s) (Act.fire d) = (forgetFlag s, []) := by
        simp [step, hm]
      have h₂ : step s (Act.fire d) = (s, []) := by
        simp [step, hm]
      rw [h₁, h₂]
  | dismiss d =>
    show removeTagManually d (forgetFlag s) = _
    unfold removeTagManually
    exact removeDomain_forgetFlag d s
  | clearAll => rfl
  | settings ts en => simp [isSettingsAct] at hns

theorem run_forgetFlag (acts : List Act) :
    ∀ s : TrackerState, s.timeoutDuration = 0 →
    (∀ a ∈ acts, isSettingsAct a = false) →
    runTrace (forgetFlag s) acts =
      (forgetFlag (runTrace s acts).1, (runTrace s acts).2) := by
  induction acts with
  | nil => intro s _ _; rfl
  | cons a rest ih =>
    intro s hz hall
    have h₁ := step_forgetFlag s a hz (hall a (by simp))
    have hz₂ : (step s a).1.timeoutDuration = 0 :=
      (step_timeoutDuration s a (hall a (by simp))).trans hz
    have h₂ := ih (step s a).1 hz₂
      (fun b hb => hall b (List.mem_cons_of_mem _ hb))
    have hfst : (step (forgetFlag s) a).1 = forgetFlag (step s a).1 := by
      rw [h₁]
    have hsnd : (step (forgetFlag s) a).2 = (step s a).2 := by
      rw [h₁]
    refine Prod.ext ?_ ?_
    · rw [runTrace_cons_fst, runTrace_cons_fst, hfst, h₂]
    · rw [runTrace_cons_snd, runTrace_cons_snd, hfst, hsnd, h₂]

theorem removeDomain_absent (d : String) (s : TrackerState)
    (h : getKey? s.displayedDomains d = none) :
    removeDomain d s = (s, []) := by
  unfold removeDomain
  rw [h]

theorem removeDomain_present (d : String) (s : TrackerState)
    (data : DomainData) (hd : getKey? s.displayedDomains d = some data) :
    (removeDomain d s).2 = [Directive.remove d] ∧
    getKey? (removeDomain d s).1.displayedDomains d = none := by
  unfold removeDomain
  rw [hd]
  exact ⟨rfl, by simp [getKey_eraseKey]⟩

/-- Claim C1 witness: three events for base domain a.com (full domains
x.a.com, y.a.com, x.a.com) produce a record with count 3 and subdomain
set consisting of x.a.com and y.a.com. -/
theorem merge_correctness_witness :
    ∃ data subs,
      getKey? (runTrace initState
        (mergeWitnessEvents.map Act.ev)).1.displayedDomains "a.com" =
        some data ∧
      data.count = mergeWitnessEvents.length ∧
      getKey? (runTrace initState
        (mergeWitnessEvents.map Act.ev)).1.subdomainCounts "a.com" =
        some subs ∧
      (∀ x, x ∈ subs ↔ x ∈ mergeWitnessEvents.map DomainEvent.fullDomain) :=
  merge_correctness initState "a.com" mergeWitnessEvents (by decide)
    (by decide) rfl

/-- Claim C2 counterexample: an event with an empty base domain is not
rejected by `processDomainEvent`: it creates a record keyed by the empty
string, arms a timer, and emits a create directive, so the call is not a
no-op and the registry state changes. -/
theorem emptyBase_event_not_rejected_cex :
    (processDomainEvent
      { baseDomain := "", fullDomain := "x.example",
        resourceType := "script", timestamp := 0 } initState).1 ≠
      initState ∧
    getKey? (processDomainEvent
      { baseDomain := "", fullDomain := "x.example",
        resourceType := "script", timestamp := 0 }
      initState).1.displayedDomains "" =
      some { count := 1, resourceType := "script" } ∧
    (processDomainEvent
      { baseDomain := "", fullDomain := "x.example",
        resourceType := "script", timestamp := 0 } initState).2 =
      [Directive.create ""] ∧
    (processDomainEvent
      { baseDomain := "", fullDomain := "x.example",
        resourceType := "script", timestamp := 0 }
      initState).1.domainTimeouts = [""] := by
  exact ⟨by decide, rfl, rfl, rfl⟩

/-- Claim C2 (amended): `processDomainEvent` applies no emptiness guard:
an event whose base domain is the empty string is processed exactly like
any other key — on a registry with no record for the empty string it
creates a record with count 1 under that key, records the full domain,
and emits a create directive (it is dropped nowhere). -/
theorem emptyBase_event_processed_like_any_other (s : TrackerState)
    (e : DomainEvent) (hb : e.baseDomain = "")
    (h0 : getKey? s.displayedDomains "" = none) :
    getKey? (processDomainEvent e s).1.displayedDomains "" =
      some { count := 1, resourceType := e.resourceType } ∧
    getKey? (processDomainEvent e s).1.subdomainCounts "" =
      some [e.fullDomain] ∧
    (processDomainEvent e s).2 = [Directive.create ""] := by
  have h := processDomainEvent_new e s (by rwa [hb])
  rwa [hb] at h

/-- Claim C2 (amended) witness: the empty-base event on the initial state
creates the empty-string record. -/
theorem emptyBase_event_processed_witness :
    getKey? (processDomainEvent
      { baseDomain := "", fullDomain := "x.example",
        resourceType := "script", timestamp := 0 }
      initState).1.displayedDomains "" =
      some { count := 1, resourceType := "script" } :=
  (emptyBase_event_processed_like_any_other initState
    { baseDomain := "", fullDomain := "x.example",
      resourceType := "script", timestamp := 0 } rfl rfl).1

/-- Claim C3: with a zero timeout duration the tracker behaves exactly as
with the timeout disabled — every non-settings action produces the same
directives and the same state apart from the flag itself, the set of
armed timers never grows, and (when no timer is armed) a run of events
and timer firings emits no remove directive and arms no timer. -/
theorem ttlZero_behaves_as_disabled (s : TrackerState) (acts : List Act)
    (hz : s.timeoutDuration = 0)
    (hns : ∀ a ∈ acts, isSettingsAct a = false) :
    runTrace (forgetFlag s) acts =
      (forgetFlag (runTrace s acts).1, (runTrace s acts).2) ∧
    (runTrace s acts).1.domainTimeouts ⊆ s.domainTimeouts ∧
    (s.domainTimeouts = [] → (∀ a ∈ acts, isEventOrFire a = true) →
      (∀ d, Directive.remove d ∉ (runTrace s acts).2) ∧
      (runTrace s acts).1.domainTimeouts = []) := by
  refine ⟨run_forgetFlag acts s hz hns,
    run_inactive_timeouts_subset acts s (Or.inr hz) hns, ?_⟩
  intro hto hef
  obtain ⟨_, r₂, r₃, _, _⟩ := run_inactive acts s (Or.inr hz) hto hef
  exact ⟨r₃, r₂⟩

/-- Claim C3 witness: one event processed under a zero duration gives the
same outcome as under a disabled timeout. -/
theorem ttlZero_behaves_as_disabled_witness :
    runTrace (forgetFlag { initState with timeoutDuration := 0 })
      [Act.ev { baseDomain := "a.com", fullDomain := "a.com",
                resourceType := "script", timestamp := 0 }] =
      (forgetFlag (runTrace { initState with timeoutDuration := 0 }
        [Act.ev { baseDomain := "a.com", fullDomain := "a.com",
                  resourceType := "script", timestamp := 0 }]).1,
       (runTrace { initState with timeoutDuration := 0 }
        [Act.ev { baseDomain := "a.com", fullDomain := "a.com",
                  resourceType := "script", timestamp := 0 }]).2) :=
  (ttlZero_behaves_as_disabled { initState with timeoutDuration := 0 }
    [Act.ev { baseDomain := "a.com", fullDomain := "a.com",
              resourceType := "script", timestamp := 0 }]
    rfl (by decide)).1

/-- Claim C4 counterexample: after the bounded timeout has cached the
fallback marker for a domain, a later completion of the favicon fetch
(`img.onload`) does overwrite the cache entry with the favicon URL, so
the first writer does not determine the cached value permanently. -/
theorem favicon_late_fetch_overwrites_cex :
    getKey? (favTimeoutCheck "d.com" []) "d.com" = some fallbackIcon ∧
    getKey? (favOnload "d.com" (favTimeoutCheck "d.com" [])) "d.com" =
      some (getFaviconUrl "d.com") ∧
    getFaviconUrl "d.com" ≠ fallbackIcon := by
  exact ⟨rfl, rfl, by decide⟩

/-- Claim C4 (amended): only the bounded-timeout callback is guarded — it
never overwrites an existing cache entry — while the fetch-completion
handlers (`img.onload`, `img.onerror`) write the cache unconditionally,
so a fetch that completes after the timeout replaces the cached fallback
with the fetched result. -/
theorem favicon_timeout_guarded_fetch_unguarded :
    (∀ d cache v, getKey? cache d = some v →
      favTimeoutCheck d cache = cache) ∧
    (∀ d cache, getKey? (favOnload d cache) d =
      some (getFaviconUrl d)) ∧
    (∀ d cache, getKey? (favOnerror d cache) d = some fallbackIcon) := by
  refine ⟨?_, ?_, ?_⟩
  · intro d cache v h
    simp [favTimeoutCheck, h]
  · intro d cache
    simp [favOnload, getKey_setKey]
  · intro d cache
    simp [favOnerror, getKey_setKey]

/-- Claim C4 (amended) witness: the timeout callback leaves an existing
fallback entry untouched. -/
theorem favicon_timeout_guarded_witness :
    favTimeoutCheck "d.com" [("d.com", fallbackIcon)] =
      [("d.com", fallbackIcon)] :=
  favicon_timeout_guarded_fetch_unguarded.1 "d.com"
    [("d.com", fallbackIcon)] fallbackIcon rfl

/-- Claim C5: teardown is idempotent — removing a key with no live record
is a no-op with no directive, manual removal delegates to `removeDomain`,
removing twice yields exactly one remove directive and no surviving
entry, and racing a timer firing against a manual dismissal also yields
exactly one remove directive and no surviving entry. -/
theorem teardown_idempotent (s : TrackerState) (d : String) :
    (getKey? s.displayedDomains d = none → removeDomain d s = (s, [])) ∧
    removeTagManually d s = removeDomain d s ∧
    ((getKey? s.displayedDomains d).isSome →
      (removeDomain d s).2 ++
        (removeDomain d (removeDomain d s).1).2 =
        [Directive.remove d] ∧
      getKey? (removeDomain d
        (removeDomain d s).1).1.displayedDomains d = none) ∧
    ((getKey? s.displayedDomains d).isSome →
      (step s (Act.fire d)).2 ++
        (removeTagManually d (step s (Act.fire d)).1).2 =
        [Directive.remove d] ∧
      getKey? (removeTagManually d
        (step s (Act.fire d)).1).1.displayedDomains d = none) := by
  refine ⟨fun h => removeDomain_absent d s h, rfl, ?_, ?_⟩
  · intro h
    obtain ⟨data, hd⟩ := Option.isSome_iff_exists.mp h
    obtain ⟨h₁, h₂⟩ := removeDomain_present d s data hd
    have h₃ := removeDomain_absent d (removeDomain d s).1 h₂
    rw [h₁, h₃]
    exact ⟨rfl, h₂⟩
  · intro h
    obtain ⟨data, hd⟩ := Option.isSome_iff_exists.mp h
    by_cases hm : d ∈ s.domainTimeouts
    · have hs : step s (Act.fire d) = removeDomain d s := by
        simp [step, hm]
      obtain ⟨h₁, h₂⟩ := removeDomain_present d s data hd
      have h₃ := removeDomain_absent d (removeDomain d s).1 h₂
      rw [hs, h₁]
      unfold removeTagManually
      rw [h₃]
      exact ⟨rfl, h₂⟩
    · have hs : step s (Act.fire d) = (s, []) := by
        simp [step, hm]
      obtain ⟨h₁, h₂⟩ := removeDomain_present d s data hd
      rw [hs]
      unfold removeTagManually
      rw [h₁]
      exact ⟨rfl, h₂⟩

/-- Claim C5 witness: after one event for a.com, removing it twice emits
exactly one remove directive and leaves no entry. -/
theorem teardown_idempotent_witness :
    (removeDomain "a.com"
      (processDomainEvent
        { baseDomain := "a.com", fullDomain := "a.com",
          resourceType := "script", timestamp := 0 } initState).1).2 ++
      (removeDomain "a.com"
        (removeDomain "a.com"
          (processDomainEvent
            { baseDomain := "a.com", fullDomain := "a.com",
              resourceType := "script", timestamp := 0 }
            initState).1).1).2 =
      [Directive.remove "a.com"] ∧
    getKey? (removeDomain "a.com"
      (removeDomain "a.com"
        (processDomainEvent
          { baseDomain := "a.com", fullDomain := "a.com",
            resourceType := "script", timestamp := 0 }
          initState).1).1).1.displayedDomains "a.com" = none :=
  (teardown_idempotent
    (processDomainEvent
      { baseDomain := "a.com", fullDomain := "a.com",
        resourceType := "script", timestamp := 0 } initState).1
    "a.com").2.2.1 (by decide)

/-- Claim C6: for every text-measurement primitive that is non-negative
and non-decreasing in string length, the estimated tag width always lies
within the 280 to 400 bounds and is non-decreasing both in the length of
the domain text and in the digit count of the occurrence counter. -/
theorem tagWidth_bounds_and_monotone (m : String → ℕ → ℚ)
    (hnn : ∀ t fs, 0 ≤ m t fs)
    (hmono : ∀ t₁ t₂ fs, t₁.length ≤ t₂.length → m t₁ fs ≤ m t₂ fs) :
    (∀ t c, MIN_TAG_WIDTH ≤ calculateOptimalTagWidth m t c ∧
      calculateOptimalTagWidth m t c ≤ MAX_TAG_WIDTH) ∧
    (∀ t₁ t₂ c, t₁.length ≤ t₂.length →
      calculateOptimalTagWidth m t₁ c ≤ calculateOptimalTagWidth m t₂ c) ∧
    (∀ t c₁ c₂, (Nat.repr c₁).length ≤ (Nat.repr c₂).length →
      calculateOptimalTagWidth m t c₁ ≤
        calculateOptimalTagWidth m t c₂) := by
  refine ⟨?_, ?_, ?_⟩
  · intro t c
    simp only [calculateOptimalTagWidth]
    exact ⟨le_max_left _ _,
      max_le (by norm_num [MIN_TAG_WIDTH, MAX_TAG_WIDTH])
        (min_le_left _ _)⟩
  · intro t₁ t₂ c h
    have h₁ : m t₁ 12 ≤ m t₂ 12 := hmono t₁ t₂ 12 h
    simp only [calculateOptimalTagWidth]
    apply max_le_max le_rfl
    apply min_le_min le_rfl
    apply Int.ceil_mono
    linarith
  · intro t c₁ c₂ h
    have h₁ : m (Nat.repr c₁) 10 ≤ m (Nat.repr c₂) 10 :=
      hmono _ _ 10 h
    have h₂ : max (30 : ℚ) (m (Nat.repr c₁) 10 + 12) ≤
        max 30 (m (Nat.repr c₂) 10 + 12) :=
      max_le_max le_rfl (by linarith)
    simp only [calculateOptimalTagWidth]
    apply max_le_max le_rfl
    apply min_le_min le_rfl
    apply Int.ceil_mono
    linarith

/-- Claim C6 witness: with the concrete length-proportional measurement
primitive, the estimate for example.com at count 3 obeys the bounds. -/
theorem tagWidth_bounds_witness :
    MIN_TAG_WIDTH ≤
      calculateOptimalTagWidth measureLenTimesSize "example.com" 3 ∧
    calculateOptimalTagWidth measureLenTimesSize "example.com" 3 ≤
      MAX_TAG_WIDTH :=
  (tagWidth_bounds_and_monotone measureLenTimesSize
    (fun t fs => by
      simp only [measureLenTimesSize]
      positivity)
    (fun t₁ t₂ fs h => by
      simp only [measureLenTimesSize]
      have := Nat.mul_le_mul_right fs h
      exact_mod_cast this)).1 "example.com" 3

/-- Claim C7: colour assignment is a deterministic pure function of the
base domain: repeated calls agree, the result always lies in the fixed
four-entry palette, and the four concrete domains a.com, b.com, c.com,
d.com attain all four palette classes. -/
theorem colorClass_pure_in_palette_all_attained :
    (∀ d : String, getDomainColorClass d = getDomainColorClass d ∧
      getDomainColorClass d ∈ colorClasses) ∧
    getDomainColorClass "a.com" = "color-orange" ∧
    getDomainColorClass "b.com" = "color-vista-bleu" ∧
    getDomainColorClass "c.com" = "color-amande" ∧
    getDomainColorClass "d.com" = "color-bleu-oxford" := by
  refine ⟨fun d => ⟨rfl, ?_⟩, by decide, by decide, by decide, by decide⟩
  have hlt : (hashDomain d).natAbs % colorClasses.length <
      colorClasses.length := Nat.mod_lt _ (by decide)
  have hball : ∀ i, i < colorClasses.length →
      colorClasses.getD i "" ∈ colorClasses := by decide
  exact hball _ hlt

/-- Claim C8: disabling the timeout cancels every armed timer, and from
any state with the timeout disabled and no armed timer, a run of events
and timer firings emits no remove directive and no remove-all directive,
never arms a timer, and keeps every live record live. -/
theorem ttl_disabled_no_timeout_removal (ts : ℕ) (s₀ s : TrackerState)
    (acts : List Act)
    (hdis : s.enableTimeout = false) (hto : s.domainTimeouts = [])
    (hacts : ∀ a ∈ acts, isEventOrFire a = true) :
    (updateTimeoutSettings ts false s₀).domainTimeouts = [] ∧
    (updateTimeoutSettings ts false s₀).enableTimeout = false ∧
    (∀ d, Directive.remove d ∉ (runTrace s acts).2) ∧
    Directive.removeAll ∉ (runTrace s acts).2 ∧
    (runTrace s acts).1.domainTimeouts = [] ∧
    (∀ d, (getKey? s.displayedDomains d).isSome →
      (getKey? (runTrace s acts).1.displayedDomains d).isSome) := by
  obtain ⟨r₁, r₂, r₃, r₄, r₅⟩ := run_inactive acts s (Or.inl hdis) hto hacts
  exact ⟨rfl, rfl, r₃, r₄, r₂, r₅⟩

/-- Claim C8 witness: after disabling the timeout, an event followed by a
timer-firing attempt emits no remove directive for a.com. -/
theorem ttl_disabled_no_timeout_removal_witness :
    Directive.remove "a.com" ∉
      (runTrace (updateTimeoutSettings 5 false initState)
        [Act.ev { baseDomain := "a.com", fullDomain := "a.com",
                  resourceType := "script", timestamp := 0 },
         Act.fire "a.com"]).2 :=
  (ttl_disabled_no_timeout_removal 5 initState
    (updateTimeoutSettings 5 false initState)
    [Act.ev { baseDomain := "a.com", fullDomain := "a.com",
              resourceType := "script", timestamp := 0 },
     Act.fire "a.com"]
    rfl rfl (by decide)).2.2.1 "a.com"

/-- Claim C9 counterexample: a second `loadFavicon` call for the same
domain while the first resolution is still in flight (the cache not yet
written) issues a second fetch rather than joining the first. -/
theorem loadFavicon_second_inflight_fetch_cex :
    (loadFaviconStart "d.com" []).2.1 = true ∧
    (loadFaviconStart "d.com"
      (loadFaviconStart "d.com" []).2.2).2.1 = true :=
  ⟨rfl, rfl⟩

/-- Claim C9 (amended): deduplication happens only through the settled
cache: a call finding a cached entry returns it immediately and issues no
fetch, while any call finding no cache entry — including one made while a
previous resolution is still in flight — issues a fresh fetch. -/
theorem loadFavicon_single_flight_only_after_settle :
    (∀ d cache v, getKey? cache d = some v →
      loadFaviconStart d cache = (some v, false, cache)) ∧
    (∀ d cache, getKey? cache d = none →
      (loadFaviconStart d cache).2.1 = true) := by
  constructor
  · intro d cache v h
    simp [loadFaviconStart, h]
  · intro d cache h
    simp [loadFaviconStart, h]

/-- Claim C9 (amended) witness: a call on a domain whose entry settled to
the fallback returns the cached fallback and issues no fetch. -/
theorem loadFavicon_single_flight_witness :
    loadFaviconStart "d.com" [("d.com", fallbackIcon)] =
      (some fallbackIcon, false, [("d.com", fallbackIcon)]) :=
  loadFavicon_single_flight_only_after_settle.1 "d.com"
    [("d.com", fallbackIcon)] fallbackIcon rfl

/-- Claim C10: in every state reachable from the initial state by any
sequence of actions, the subdomain map has exactly the keys of the record
registry and every armed timer's key has a live record. -/
theorem registry_key_sets_aligned (acts : List Act) :
    (∀ d, (getKey? (runTrace initState acts).1.subdomainCounts d).isSome ↔
      (getKey? (runTrace initState acts).1.displayedDomains d).isSome) ∧
    (∀ d ∈ (runTrace initState acts).1.domainTimeouts,
      (getKey? (runTrace initState acts).1.displayedDomains d).isSome) :=
  runTrace_preserves_RegistryInv acts initState
    ⟨fun d => Iff.rfl, fun d hd => absurd hd (List.not_mem_nil d)⟩

/-- Claim C10 witness: after one event for a.com its timer key has a live
record. -/
theorem registry_key_sets_aligned_witness :
    (getKey? (runTrace initState
      [Act.ev { baseDomain := "a.com", fullDomain := "x.a.com",
                resourceType := "script", timestamp := 0 }]).1.displayedDomains
      "a.com").isSome :=
  (registry_key_sets_aligned
    [Act.ev { baseDomain := "a.com", fullDomain := "x.a.com",
              resourceType := "script", timestamp := 0 }]).2 "a.com"
    (by decide)

end TPD
